import Mathlib

/-!
Verification of the Cadence deployment-and-execution pipeline slice.

The development shallowly embeds:
* `runtime/compiler/local_activations.go` — parent-chained activation records
  and the activation stack (embedded directly from the source);
* the test harness's transaction/block state machine and the contract
  deployment validator, whose implementations are exercised by
  `runtime/testlib_test.go` and `runtime/deployment_test.go`; those
  implementations are modelled from the specification, pinned at every point
  the tests observe.

Go maps are modelled as association lists with overwrite-on-insert,
pointers as `Option`, and the external collaborators (interpreter, hash)
as function parameters.
-/

/-- Read from a Go map modelled as an association list:
the value for the first matching key, `none` if absent (Go zero value). -/
def mapGet {K V : Type} [DecidableEq K] : List (K × V) → K → Option V
  | [], _ => none
  | (k0, v0) :: rest, k => if k0 = k then some v0 else mapGet rest k

/-- Write to a Go map modelled as an association list:
overwrite the binding if the key is present, append it otherwise. -/
def mapSet {K V : Type} [DecidableEq K] : List (K × V) → K → V → List (K × V)
  | [], k, v => [(k, v)]
  | (k0, v0) :: rest, k, v =>
    if k0 = k then (k, v) :: rest else (k0, v0) :: mapSet rest k v

/-- A `LocalActivation` from `runtime/compiler/local_activations.go`:
a map of names to values plus a depth, an optional parent pointer,
and the function-boundary flag.  The value type `V` stands for the Go
`*Local` values stored in the map. -/
inductive LocalActivation (V : Type) : Type where
  | mk (entries : List (String × V)) (depth : Nat)
      (parent : Option (LocalActivation V)) (isFunction : Bool)

/-- Field accessor for the `entries` map of a `LocalActivation`. -/
def LocalActivation.entries {V : Type} : LocalActivation V → List (String × V)
  | .mk es _ _ _ => es

/-- Field accessor for the `Depth` field of a `LocalActivation`. -/
def LocalActivation.Depth {V : Type} : LocalActivation V → Nat
  | .mk _ d _ _ => d

/-- Field accessor for the `Parent` pointer of a `LocalActivation`
(`none` models the nil pointer). -/
def LocalActivation.Parent {V : Type} : LocalActivation V → Option (LocalActivation V)
  | .mk _ _ p _ => p

/-- `NewLocalActivation(parent)`: a fresh activation with no entries,
depth `parent.Depth + 1` (or `0` for a nil parent), and the given parent. -/
def NewLocalActivation {V : Type} (parent : Option (LocalActivation V)) : LocalActivation V :=
  LocalActivation.mk []
    (match parent with
     | some p => p.Depth + 1
     | none => 0)
    parent
    false

/-- `LocalActivation.Find(name)`: walk the chain of activations starting at
this one, following `Parent` pointers, and return the first binding found
for `name`; `none` models the nil result. -/
def LocalActivation.Find {V : Type} : LocalActivation V → String → Option V
  | .mk es _ parent _, name =>
    match mapGet es name with
    | some v => some v
    | none =>
      match parent with
      | some p => p.Find name
      | none => none

/-- `LocalActivation.Set(name, value)`: record the binding in this
activation's own entries map (allocating it if needed). -/
def LocalActivation.Set {V : Type} : LocalActivation V → String → V → LocalActivation V
  | .mk es d parent fn, name, value => .mk (mapSet es name value) d parent fn

/-- The chain of entry maps seen from an activation: its own entries first,
then the entries of each ancestor in `Parent` order. -/
def LocalActivation.chain {V : Type} : LocalActivation V → List (List (String × V))
  | .mk es _ parent _ =>
    es ::
      (match parent with
       | some p => p.chain
       | none => [])

/-- Reference lookup over a chain of frames: the binding held by the
nearest frame that contains the name, `none` when no frame does. -/
def chainLookup {V : Type} : List (List (String × V)) → String → Option V
  | [], _ => none
  | es :: rest, n =>
    match mapGet es n with
    | some v => some v
    | none => chainLookup rest n

/-- A `LocalActivations` value: the stack of activation records, with the
top of the stack at the end of the list, as in the Go slice. -/
structure LocalActivations (V : Type) : Type where
  activations : List (LocalActivation V)

/-- The empty activation stack (Go zero value). -/
def LocalActivations.empty {V : Type} : LocalActivations V :=
  ⟨[]⟩

/-- `LocalActivations.Current()`: the top of the stack,
`none` if the stack is empty. -/
def LocalActivations.Current {V : Type} (a : LocalActivations V) : Option (LocalActivation V) :=
  if a.activations.length < 1 then none
  else a.activations.getLast?

/-- `LocalActivations.Find(name)`: look the name up in the current
activation; `none` if there is no current activation. -/
def LocalActivations.Find {V : Type} (a : LocalActivations V) (name : String) : Option V :=
  match a.Current with
  | none => none
  | some c => c.Find name

/-- `LocalActivations.Push(activation)`: push onto the top of the stack. -/
def LocalActivations.Push {V : Type} (a : LocalActivations V) (act : LocalActivation V) :
    LocalActivations V :=
  ⟨a.activations ++ [act]⟩

/-- `LocalActivations.PushNewWithParent(parent)`: push a fresh empty
activation whose parent is the given one. -/
def LocalActivations.PushNewWithParent {V : Type} (a : LocalActivations V)
    (parent : Option (LocalActivation V)) : LocalActivations V :=
  a.Push (NewLocalActivation parent)

/-- `LocalActivations.Set(name, value)`: set the pair in the current
activation, first creating the first scope if there is none. -/
def LocalActivations.Set {V : Type} (a : LocalActivations V) (name : String) (value : V) :
    LocalActivations V :=
  match a.Current with
  | none => ⟨a.activations ++ [(NewLocalActivation none).Set name value]⟩
  | some c => ⟨a.activations.dropLast ++ [c.Set name value]⟩

/-- `LocalActivations.Pop()`: drop the top of the stack;
a no-op on the empty stack. -/
def LocalActivations.Pop {V : Type} (a : LocalActivations V) : LocalActivations V :=
  if a.activations.length < 1 then a
  else ⟨a.activations.dropLast⟩

/-- Transaction execution status of the harness
(`Test.ResultStatus.succeeded` / `Test.ResultStatus.failed`). -/
inductive ResultStatus : Type where
  | succeeded
  | failed
deriving DecidableEq, Repr

/-- Modelled from the spec: a `PendingTransaction` of the execution harness
(`Test.Transaction`), whose implementation is exercised by
`runtime/testlib_test.go` but absent from the sources: code text,
authorizer addresses, signer account addresses, and arguments. -/
structure TestTransaction : Type where
  code : String
  authorizers : List Nat
  signers : List Nat
  arguments : List Int
deriving DecidableEq, Repr

/-- Modelled from the spec: the standalone errors of the harness state
machine (taxonomy entry HarnessStateError). -/
inductive HarnessError : Type where
  | commitBeforeExecution
  | midExecution
deriving DecidableEq, Repr

/-- The observable message of a harness state error, as asserted by the
tests in `runtime/testlib_test.go`. -/
def HarnessError.message : HarnessError → String
  | .commitBeforeExecution => "cannot be committed before execution"
  | .midExecution => "is currently being executed"

/-- Modelled from the spec: the in-memory blockchain harness state
(`Test.newEmulatorBlockchain()`), whose implementation is exercised by
`runtime/testlib_test.go` but absent from the sources.  `pendingTxs` is the
current block's transaction list, `executedCount` the execution cursor into
it (transactions before the cursor have been executed), `pendingResults`
the statuses of the executed ones, and `committedBlocks` the results of
committed blocks. -/
structure Blockchain : Type where
  accounts : List Nat
  seqNums : List (Nat × Nat)
  pendingTxs : List TestTransaction
  executedCount : Nat
  pendingResults : List ResultStatus
  committedBlocks : List (List ResultStatus)
deriving DecidableEq, Repr

/-- A freshly created harness: no accounts, no pending block contents. -/
def Blockchain.new : Blockchain :=
  ⟨[], [], [], 0, [], []⟩

/-- Execution of the pending block has started: at least one of its
transactions has been executed. -/
def Blockchain.executionStarted (b : Blockchain) : Bool :=
  decide (0 < b.executedCount)

/-- Execution of the pending block is complete: every transaction in it has
been executed. -/
def Blockchain.executionComplete (b : Blockchain) : Bool :=
  decide (b.pendingTxs.length ≤ b.executedCount)

/-- The pending block is mid-execution: some but not all of its
transactions have been executed.  This is the state the harness errors
call "is currently being executed"
(see `TestExecutingTransactions/commit partially executed block`). -/
def Blockchain.midExecution (b : Blockchain) : Bool :=
  b.executionStarted && !b.executionComplete

/-- Modelled from the spec: `createAccount()` allocates a fresh address
with a zero-initialized sequence number; it always succeeds. -/
def createAccount (b : Blockchain) : Blockchain × Nat :=
  let addr := b.accounts.length + 1
  (⟨b.accounts ++ [addr], mapSet b.seqNums addr 0,
    b.pendingTxs, b.executedCount, b.pendingResults, b.committedBlocks⟩,
   addr)

/-- Modelled from the spec: `addTransaction(tx)` appends the transaction to
the pending block; it fails with the "is currently being executed" error
when the pending block is mid-execution.  On failure the state is
unchanged. -/
def addTransaction (b : Blockchain) (tx : TestTransaction) :
    Blockchain × Option HarnessError :=
  if b.midExecution then (b, some HarnessError.midExecution)
  else
    ({ b with pendingTxs := b.pendingTxs ++ [tx] }, none)

/-- Increment one account's sequence number in the sequence-number map. -/
def mapIncrement (m : List (Nat × Nat)) (k : Nat) : List (Nat × Nat) :=
  mapSet m k ((mapGet m k).getD 0 + 1)

/-- Increment each signer's sequence number exactly once. -/
def incrementSigners (signers : List Nat) (m : List (Nat × Nat)) : List (Nat × Nat) :=
  signers.foldl mapIncrement m

/-- Convert the interpreter collaborator's verdict to a status. -/
def toStatus (ok : Bool) : ResultStatus :=
  if ok then ResultStatus.succeeded else ResultStatus.failed

/-- The type of the interpreter collaborator (spec §6 `interpret`): given a
transaction and the current sequence-number map, report whether the
transaction's execution succeeds. -/
def TxOracle : Type :=
  TestTransaction → List (Nat × Nat) → Bool

/-- Modelled from the spec: `executeNextTransaction()` — if no unexecuted
transaction remains in the pending block, return "no transaction" (`none`,
not an error); otherwise execute the oldest unexecuted transaction (FIFO),
move the cursor, record its status, and increment each signer's sequence
number exactly once regardless of outcome. -/
def executeNextTransaction (I : TxOracle) (b : Blockchain) :
    Blockchain × Option ResultStatus :=
  match b.pendingTxs.get? b.executedCount with
  | none => (b, none)
  | some tx =>
    let st := toStatus (I tx b.seqNums)
    ({ b with
        seqNums := incrementSigners tx.signers b.seqNums,
        executedCount := b.executedCount + 1,
        pendingResults := b.pendingResults ++ [st] },
     some st)

/-- Modelled from the spec: `commitBlock()` — fails with "cannot be
committed before execution" when the pending block has transactions and
execution has not started; fails with "is currently being executed" when
it is mid-execution; otherwise commits the block's results and opens a
fresh block.  On failure the state is unchanged. -/
def commitBlock (b : Blockchain) : Blockchain × Option HarnessError :=
  if !b.executionStarted && !b.pendingTxs.isEmpty then
    (b, some HarnessError.commitBeforeExecution)
  else if b.midExecution then
    (b, some HarnessError.midExecution)
  else
    (⟨b.accounts, b.seqNums, [], 0, [],
      b.committedBlocks ++ [b.pendingResults]⟩,
     none)

/-- Modelled from the spec and pinned by the tests: `executeTransaction(tx)`
adds the transaction, executes the next queued transaction, and commits
the block (the commit step is forced by
`TestExecutingTransactions/run multiple transactions` together with
`TestExecutingTransactions/run transaction with pending transactions`).
The first failing step's error is returned. -/
def executeTransaction (I : TxOracle) (b : Blockchain) (tx : TestTransaction) :
    Blockchain × Except HarnessError (Option ResultStatus) :=
  match addTransaction b tx with
  | (b1, some e) => (b1, Except.error e)
  | (b1, none) =>
    let step := executeNextTransaction I b1
    match commitBlock step.1 with
    | (b3, some e) => (b3, Except.error e)
    | (b3, none) => (b3, Except.ok step.2)

/-- Modelled from the spec: reset every account's sequence number to its
baseline (the zero-initialized creation value), as happens at the start of
each execution pass over a batch of transactions (spec §3, Account). -/
def resetSeqNums (b : Blockchain) : Blockchain :=
  { b with seqNums := b.accounts.map (fun a => (a, 0)) }

/-- Execute a list of transactions one by one via `executeTransaction`,
collecting one result per element in list order. -/
def execTxsGo (I : TxOracle) : Blockchain → List TestTransaction →
    Blockchain × List (Except HarnessError (Option ResultStatus))
  | b, [] => (b, [])
  | b, tx :: rest =>
    let step := executeTransaction I b tx
    let finish := execTxsGo I step.1 rest
    (finish.1, step.2 :: finish.2)

/-- Modelled from the spec: `executeTransactions(list)` starts a fresh
execution pass (resetting sequence numbers to their baselines) and then
executes each element via `executeTransaction` in list order, collecting
one result per element. -/
def executeTransactions (I : TxOracle) (b : Blockchain) (txs : List TestTransaction) :
    Blockchain × List (Except HarnessError (Option ResultStatus)) :=
  execTxsGo I (resetSeqNums b) txs

/-- A source span: 1-based line and column of the start of the referenced
range (spec §3, Span). -/
structure SrcSpan : Type where
  line : Nat
  col : Nat
deriving DecidableEq, Repr

/-- A located diagnostic: the source unit it belongs to, its span, and its
message (spec §3, Diagnostic). -/
structure Diagnostic : Type where
  unitTag : String
  span : SrcSpan
  message : String
deriving DecidableEq, Repr

/-- A parsed contract (or contract-interface) declaration: its identifier
and the declared parameter types of its initializer (empty when no
initializer is declared). -/
structure ContractDecl : Type where
  isInterface : Bool
  name : String
  initParams : List String
deriving DecidableEq, Repr

/-- A top-level declaration of a deployed source unit: either a contract
(or contract-interface) declaration, or anything else (free function,
loose statement, second contract of unknown shape, ...). -/
inductive TopDecl : Type where
  | contractDecl (c : ContractDecl)
  | otherDecl
deriving DecidableEq, Repr

/-- The parser/checker collaborators' output for the deployed source unit
(spec §6): the parse diagnostics, the parsed top-level declarations, and
the check diagnostics (produced only when parsing succeeded). -/
structure InnerUnit : Type where
  parseDiags : List Diagnostic
  topLevel : List TopDecl
  checkDiags : List Diagnostic
deriving DecidableEq, Repr

/-- The inner unit's own diagnostics in recording order: parse errors, and
check errors only when parsing fully succeeded (spec §4.2). -/
def innerDiags (u : InnerUnit) : List Diagnostic :=
  if u.parseDiags.isEmpty then u.checkDiags else u.parseDiags

/-- Shape check (spec §4.3 step 1): the top level holds exactly one
declaration, a contract (or contract-interface) declaration whose
identifier equals the declared name. -/
def declaredShapeOk (name : String) (u : InnerUnit) : Bool :=
  match u.topLevel with
  | [TopDecl.contractDecl c] => c.name == name
  | _ => false

/-- A deployment is valid when the inner code parses, checks, and has the
right shape; otherwise it is rejected as "cannot deploy invalid contract"
(pinned by `TestRuntimeTransactionWithContractDeployment` and
`TestErrors/contract deployment error`). -/
def deployValid (name : String) (u : InnerUnit) : Bool :=
  u.parseDiags.isEmpty && u.checkDiags.isEmpty && declaredShapeOk name u

/-- The initializer parameter types of the single matching contract
declaration (zero parameters when no initializer is declared). -/
def contractInitParams (u : InnerUnit) : List String :=
  match u.topLevel with
  | [TopDecl.contractDecl c] => c.initParams
  | _ => []

/-- A caller-supplied constructor argument, carrying its observed type
name (spec §4.3: each argument carries an observed type). -/
structure ArgValue : Type where
  ty : String
deriving DecidableEq, Repr

/-- The arity-mismatch diagnostic (spec §4.3 step 2): "invalid argument
count, too many|too few arguments: expected N, got M" at the call site. -/
def arityDiag (outerUnit : String) (callSite : SrcSpan) (n m : Nat) : Diagnostic :=
  ⟨outerUnit, callSite,
    "invalid argument count, " ++ (if n < m then "too many" else "too few") ++
      " arguments: expected " ++ toString n ++ ", got " ++ toString m⟩

/-- Left-to-right argument type checking (spec §4.3 step 3): the first
argument not assignable to its declared parameter type produces the
"invalid argument i: expected type `d`, got `a`" diagnostic at the call
site, and checking stops there. -/
def checkArgumentTypes (assignable : String → String → Bool) (outerUnit : String)
    (callSite : SrcSpan) : Nat → List String → List ArgValue → Option Diagnostic
  | _, [], _ => none
  | _, _ :: _, [] => none
  | i, p :: ps, a :: as =>
    if assignable a.ty p then
      checkArgumentTypes assignable outerUnit callSite (i + 1) ps as
    else
      some ⟨outerUnit, callSite,
        "invalid argument " ++ toString i ++ ": expected type `" ++ p ++
          "`, got `" ++ a.ty ++ "`"⟩

/-- The harness's ledger view: installed code bytes keyed by account
address and contract name. -/
abbrev Ledger : Type :=
  List ((Nat × String) × List Nat)

/-- A deployment event: address, contract name, and the content hash of
the installed code (spec §4.3 step 4). -/
structure DeployEvent : Type where
  address : Nat
  name : String
  codeHash : List Nat
deriving DecidableEq, Repr

/-- The outcome of a deployment operation: the recorded error diagnostics,
the resulting ledger, and the emitted events. -/
structure DeployOutcome : Type where
  errors : List Diagnostic
  ledger : Ledger
  events : List DeployEvent
deriving DecidableEq, Repr

/-- Modelled from the spec: the deployment validator (spec §4.3), whose
implementation is exercised by `runtime/deployment_test.go` but absent
from the sources.  `assignable` is the checker collaborator's
assignability judgement and `hash` the content-addressing collaborator
(sha3_256 in the tests).  Steps, in order: shape/validity check (one
"cannot deploy invalid contract" diagnostic at the outer call site,
recorded before the inner code's own diagnostics, and argument checks are
skipped); arity check; left-to-right argument type check; install and
event emission. -/
def deployContract (assignable : String → String → Bool) (hash : List Nat → List Nat)
    (outerUnit : String) (callSite : SrcSpan) (addr : Nat) (name : String)
    (codeBytes : List Nat) (u : InnerUnit) (args : List ArgValue)
    (ledger : Ledger) : DeployOutcome :=
  if deployValid name u = false then
    { errors := ⟨outerUnit, callSite, "cannot deploy invalid contract"⟩ :: innerDiags u,
      ledger := ledger,
      events := [] }
  else
    let params := contractInitParams u
    if args.length = params.length then
      match checkArgumentTypes assignable outerUnit callSite 0 params args with
      | some d => { errors := [d], ledger := ledger, events := [] }
      | none =>
        { errors := [],
          ledger := mapSet ledger (addr, name) codeBytes,
          events := [⟨addr, name, hash codeBytes⟩] }
    else
      { errors := [arityDiag outerUnit callSite params.length args.length],
        ledger := ledger,
        events := [] }

/-- Reference status sequence of a batch run: the status of each
transaction under the interpreter oracle, threading the sequence-number
map through the signers' increments. -/
def batchStatuses (I : TxOracle) : List (Nat × Nat) → List TestTransaction →
    List (Except HarnessError (Option ResultStatus))
  | _, [] => []
  | s, tx :: rest =>
    Except.ok (some (toStatus (I tx s))) :: batchStatuses I (incrementSigners tx.signers s) rest

/-- The failing transaction used throughout `TestExecutingTransactions`. -/
def sampleTx : TestTransaction :=
  ⟨"transaction { execute{ assert(false) } }", [], [1], []⟩

/-- A second transaction, used where two distinct transactions appear. -/
def sampleTx2 : TestTransaction :=
  ⟨"transaction { execute{ assert(true) } }", [], [1], []⟩

/-- An interpreter oracle under which every transaction fails
(the sample transactions assert false). -/
def failOracle : TxOracle :=
  fun _ _ => false

/-- The harness state of
`TestExecutingTransactions/commit partially executed block`: a fresh
harness with one account, two transactions added, and exactly one of them
executed. -/
def partialState : Blockchain :=
  (executeNextTransaction failOracle
    (addTransaction (addTransaction (createAccount Blockchain.new).1 sampleTx).1 sampleTx).1).1

/-- The harness state of
`TestExecutingTransactions/run transaction with pending transactions`
just before `executeTransaction` is called: one transaction added and not
yet executed. -/
def queuedState : Blockchain :=
  (addTransaction (createAccount Blockchain.new).1 sampleTx).1

/-- The parsed and checked source unit of `pub contract Test {}`:
no parse errors, a single matching contract declaration with no
initializer parameters, no check errors. -/
def testContractUnit : InnerUnit :=
  ⟨[], [TopDecl.contractDecl ⟨false, "Test", []⟩], []⟩

/-- The raw code bytes of `pub contract Test {}`. -/
def testContractBytes : List Nat :=
  "pub contract Test {}".data.map Char.toNat

/-- The parsed and checked source unit of a contract `Test` whose
initializer declares a single `Int` parameter
(`TestRuntimeTransactionWithContractDeployment/with incorrect argument`). -/
def intParamContractUnit : InnerUnit :=
  ⟨[], [TopDecl.contractDecl ⟨false, "Test", ["Int"]⟩], []⟩

/-- The deployed unit of
`TestRuntimeTransactionWithContractDeployment/additional code which is
invalid at top-level`: a matching contract plus an extra top-level
function declaration, which independently produces two check errors. -/
def extraDeclUnit : InnerUnit :=
  ⟨[],
   [TopDecl.contractDecl ⟨false, "Test", []⟩, TopDecl.otherDecl],
   [⟨"2a00000000000000.Test", ⟨4, 11⟩, "function declarations are not valid at the top-level"⟩,
    ⟨"2a00000000000000.Test", ⟨4, 7⟩, "missing access modifier for function"⟩]⟩

/-- The call-site span of the deployment transactions in
`runtime/deployment_test.go`: line 5, column 26 of the outer unit `00`. -/
def deployCallSite : SrcSpan :=
  ⟨5, 26⟩

/-- Type-name assignability used in the deployment witnesses: exact match. -/
def tyEq : String → String → Bool :=
  fun a p => a == p

theorem find_eq_chainLookup {V : Type} :
    ∀ (a : LocalActivation V) (n : String), a.Find n = chainLookup a.chain n
  | .mk es d parent fn, n => by
    cases parent with
    | none => simp [LocalActivation.Find, LocalActivation.chain, chainLookup]
    | some p =>
      simp only [LocalActivation.Find, LocalActivation.chain, chainLookup]
      cases mapGet es n with
      | none => simpa using find_eq_chainLookup p n
      | some v => rfl

theorem chainLookup_eq_none_iff {V : Type} (frames : List (List (String × V))) (n : String) :
    chainLookup frames n = none ↔ ∀ es ∈ frames, mapGet es n = none := by
  induction frames with
  | nil => simp [chainLookup]
  | cons es rest ih =>
    simp only [chainLookup]
    cases h : mapGet es n with
    | none => simp [h, ih]
    | some v => simp [h]

/-- C9: `LocalActivation.Find` returns the binding held by the nearest
frame on the chain from the activation through its `Parent` links that
contains the name; a binding `Set` in an inner frame therefore shadows any
binding of the same name in an outer frame; and `Find` returns nil exactly
when no frame on the chain binds the name. -/
theorem localActivation_find_nearest {V : Type} (a : LocalActivation V) (n : String) :
    a.Find n = chainLookup a.chain n
    ∧ (a.Find n = none ↔ ∀ es ∈ a.chain, mapGet es n = none)
    ∧ ∀ v : V, ((NewLocalActivation (some a)).Set n v).Find n = some v := by
  refine ⟨find_eq_chainLookup a n, ?_, ?_⟩
  · rw [find_eq_chainLookup a n]
    exact chainLookup_eq_none_iff a.chain n
  · intro v
    simp [NewLocalActivation, LocalActivation.Set, LocalActivation.Find, mapSet, mapGet]

/-- C10: every stack operation is total on the empty stack — `Current()`
and `Find(name)` return nil, `Pop()` leaves the empty stack unchanged, and
`Set(name, value)` creates and pushes a fresh parentless activation
recording the binding, after which `Find(name)` returns that value. -/
theorem localActivations_empty_total {V : Type} (n : String) (v : V) :
    (LocalActivations.empty (V := V)).Current = none
    ∧ (LocalActivations.empty (V := V)).Find n = none
    ∧ (LocalActivations.empty (V := V)).Pop = LocalActivations.empty
    ∧ (LocalActivations.empty (V := V)).Set n v =
        ⟨[(NewLocalActivation none).Set n v]⟩
    ∧ ((LocalActivations.empty (V := V)).Set n v).Find n = some v := by
  refine ⟨rfl, rfl, rfl, rfl, ?_⟩
  simp [LocalActivations.empty, LocalActivations.Set, LocalActivations.Find,
    LocalActivations.Current, NewLocalActivation, LocalActivation.Set,
    LocalActivation.Find, mapSet, mapGet]

theorem executeTransaction_clean (I : TxOracle) (b : Blockchain) (tx : TestTransaction)
    (h1 : b.pendingTxs = []) (h2 : b.executedCount = 0) :
    executeTransaction I b tx =
      (⟨b.accounts, incrementSigners tx.signers b.seqNums, [], 0, [],
        b.committedBlocks ++ [b.pendingResults ++ [toStatus (I tx b.seqNums)]]⟩,
       Except.ok (some (toStatus (I tx b.seqNums)))) := by
  obtain ⟨acc, seq, pend, cnt, pres, comm⟩ := b
  dsimp only at h1 h2
  subst h1 h2
  simp [executeTransaction, addTransaction, executeNextTransaction, commitBlock,
    Blockchain.midExecution, Blockchain.executionStarted, Blockchain.executionComplete]

theorem execTxsGo_length (I : TxOracle) :
    ∀ (txs : List TestTransaction) (b : Blockchain),
      (execTxsGo I b txs).2.length = txs.length
  | [], _ => rfl
  | tx :: rest, b => by
    simp [execTxsGo, execTxsGo_length I rest]

theorem execTxsGo_clean (I : TxOracle) :
    ∀ (txs : List TestTransaction) (b : Blockchain),
      b.pendingTxs = [] → b.executedCount = 0 →
      (execTxsGo I b txs).2 = batchStatuses I b.seqNums txs
      ∧ (execTxsGo I b txs).1.accounts = b.accounts
      ∧ (execTxsGo I b txs).1.pendingTxs = []
      ∧ (execTxsGo I b txs).1.executedCount = 0
  | [], b, h1, h2 => by simp [execTxsGo, batchStatuses, h1, h2]
  | tx :: rest, b, h1, h2 => by
    have step := executeTransaction_clean I b tx h1 h2
    have ih := execTxsGo_clean I rest
      ⟨b.accounts, incrementSigners tx.signers b.seqNums, [], 0, [],
        b.committedBlocks ++ [b.pendingResults ++ [toStatus (I tx b.seqNums)]]⟩
      rfl rfl
    simp only [execTxsGo, step, batchStatuses]
    exact ⟨by simp [ih.1], ih.2.1, ih.2.2.1, ih.2.2.2⟩

/-- C4: in the concrete scenario of
`TestExecutingTransactions/commit partially executed block` — two
transactions queued and only one executed — `commitBlock()` fails with the
message "is currently being executed"; after the second transaction is
also executed, a subsequent `commitBlock()` succeeds. -/
theorem commit_partial_then_full_scenario :
    ((commitBlock partialState).2.map HarnessError.message)
      = some "is currently being executed"
    ∧ (commitBlock (executeNextTransaction failOracle partialState).1).2 = none := by
  decide

/-- C1 counterexample: in the harness state with two transactions added
since the last commit and only one executed, the second transaction is
still unexecuted (still "Queued" in the claim's sense), yet `commitBlock()`
does not fail with "cannot be committed before execution" — it fails with
"is currently being executed", contradicting the claim's first clause. -/
theorem commitBlock_queued_message_counterexample :
    partialState.executedCount < partialState.pendingTxs.length
    ∧ ((commitBlock partialState).2.map HarnessError.message)
        ≠ some "cannot be committed before execution"
    ∧ ((commitBlock partialState).2.map HarnessError.message)
        = some "is currently being executed" := by
  decide

/-- C1 (amended): `commitBlock()` fails with "cannot be committed before
execution" when the block has transactions and none has been executed;
fails with "is currently being executed" when some but not all of its
transactions have been executed; otherwise it commits the block's results
and opens a fresh block; and a failing commit leaves the state unchanged. -/
theorem commitBlock_state_machine (b : Blockchain) :
    (b.pendingTxs ≠ [] → b.executedCount = 0 →
      commitBlock b = (b, some HarnessError.commitBeforeExecution))
    ∧ (0 < b.executedCount → b.executedCount < b.pendingTxs.length →
      commitBlock b = (b, some HarnessError.midExecution))
    ∧ ((b.pendingTxs = [] ∨ b.pendingTxs.length ≤ b.executedCount) →
      commitBlock b =
        (⟨b.accounts, b.seqNums, [], 0, [], b.committedBlocks ++ [b.pendingResults]⟩, none))
    ∧ (∀ e, (commitBlock b).2 = some e → (commitBlock b).1 = b) := by
  obtain ⟨acc, seq, pend, cnt, pres, comm⟩ := b
  refine ⟨?_, ?_, ?_, ?_⟩
  · intro hne h0
    dsimp only at hne h0 ⊢
    subst h0
    cases pend with
    | nil => exact absurd rfl hne
    | cons p ps =>
      simp [commitBlock, Blockchain.executionStarted, Blockchain.midExecution,
        Blockchain.executionComplete]
  · intro h1 h2
    dsimp only at h1 h2 ⊢
    simp [commitBlock, Blockchain.executionStarted, Blockchain.midExecution,
      Blockchain.executionComplete, h1, Nat.not_le.mpr h2]
  · intro hdisj
    dsimp only at hdisj ⊢
    rcases hdisj with h | h
    · subst h
      simp [commitBlock, Blockchain.executionStarted, Blockchain.midExecution,
        Blockchain.executionComplete]
    · cases pend with
      | nil =>
        simp [commitBlock, Blockchain.executionStarted, Blockchain.midExecution,
          Blockchain.executionComplete]
      | cons p ps =>
        have hstart : 0 < cnt := lt_of_lt_of_le (by simp) h
        simp only [List.length_cons] at h
        simp [commitBlock, Blockchain.executionStarted, Blockchain.midExecution,
          Blockchain.executionComplete, hstart, h]
  · intro e
    unfold commitBlock
    split
    · intro _; rfl
    · split
      · intro _; rfl
      · intro he; simp at he

/-- C1 witness: the amended commit rules applied to the concrete
partially executed block. -/
theorem commitBlock_state_machine_witness :
    (0 < partialState.executedCount
      ∧ partialState.executedCount < partialState.pendingTxs.length)
    ∧ commitBlock partialState = (partialState, some HarnessError.midExecution) :=
  ⟨by decide, (commitBlock_state_machine partialState).2.1 (by decide) (by decide)⟩

/-- C3 counterexample: in the scenario of
`TestExecutingTransactions/run transaction with pending transactions`,
no transaction is mid-execution and one transaction is merely queued, yet
`executeTransaction` of a second transaction fails with the "is currently
being executed" error, contradicting the claim that both operations
succeed whenever no transaction is selected. -/
theorem executeTransaction_queued_counterexample :
    queuedState.midExecution = false
    ∧ queuedState.executedCount = 0
    ∧ queuedState.pendingTxs ≠ []
    ∧ (executeTransaction failOracle queuedState sampleTx2).2
        = Except.error HarnessError.midExecution
    ∧ HarnessError.message HarnessError.midExecution = "is currently being executed" :=
  ⟨by decide, by decide, by decide, rfl, rfl⟩

/-- C3 (amended): `addTransaction(tx)` appends the transaction to the
pending block and fails with the "is currently being executed" error
exactly when the pending block is mid-execution (some but not all of its
transactions executed); `executeTransaction(tx)` is `addTransaction`
followed by `executeNextTransaction` followed by `commitBlock`, and from a
block with no execution started it succeeds when the block was empty but
fails with the same "is currently being executed" error when another
transaction was already queued. -/
theorem addTransaction_executeTransaction_spec (I : TxOracle) (b : Blockchain)
    (tx : TestTransaction) :
    (b.midExecution = true → addTransaction b tx = (b, some HarnessError.midExecution))
    ∧ (b.midExecution = false →
        addTransaction b tx = ({ b with pendingTxs := b.pendingTxs ++ [tx] }, none))
    ∧ (b.pendingTxs = [] → b.executedCount = 0 →
        (executeTransaction I b tx).2 = Except.ok (some (toStatus (I tx b.seqNums))))
    ∧ (b.pendingTxs ≠ [] → b.executedCount = 0 →
        (executeTransaction I b tx).2 = Except.error HarnessError.midExecution) := by
  refine ⟨?_, ?_, ?_, ?_⟩
  · intro h
    simp [addTransaction, h]
  · intro h
    simp [addTransaction, h]
  · intro h1 h2
    rw [executeTransaction_clean I b tx h1 h2]
  · intro hne h0
    obtain ⟨acc, seq, pend, cnt, pres, comm⟩ := b
    dsimp only at hne h0 ⊢
    subst h0
    cases pend with
    | nil => exact absurd rfl hne
    | cons p ps =>
      simp [executeTransaction, addTransaction, executeNextTransaction, commitBlock,
        Blockchain.midExecution, Blockchain.executionStarted, Blockchain.executionComplete]

/-- C3 witness: the amended rules applied at the concrete queued state and
at the concrete empty-block state. -/
theorem addTransaction_executeTransaction_spec_witness :
    (queuedState.pendingTxs ≠ [] ∧ queuedState.executedCount = 0)
    ∧ (executeTransaction failOracle queuedState sampleTx2).2
        = Except.error HarnessError.midExecution :=
  ⟨⟨by decide, by decide⟩,
   (addTransaction_executeTransaction_spec failOracle queuedState sampleTx2).2.2.2
     (by decide) (by decide)⟩

/-- C7: `executeTransactions(list)` returns exactly one result per element
in list order (the empty list yields an empty result list), and executing
the same ordered batch twice against the same harness yields identical
per-transaction status sequences both times, because signer sequence
numbers reset to their baseline values at the start of each batch before
re-incrementing. -/
theorem executeTransactions_batch (I : TxOracle) (b : Blockchain)
    (txs : List TestTransaction)
    (h1 : b.pendingTxs = []) (h2 : b.executedCount = 0) :
    (executeTransactions I b txs).2.length = txs.length
    ∧ (executeTransactions I b []).2 = []
    ∧ (executeTransactions I (executeTransactions I b txs).1 txs).2 =
        (executeTransactions I b txs).2 := by
  have hfields : ∀ c : Blockchain,
      (resetSeqNums c).pendingTxs = c.pendingTxs
      ∧ (resetSeqNums c).executedCount = c.executedCount
      ∧ (resetSeqNums c).accounts = c.accounts
      ∧ (resetSeqNums c).seqNums = c.accounts.map (fun a => (a, 0)) := by
    intro c
    exact ⟨rfl, rfl, rfl, rfl⟩
  have c1 := execTxsGo_clean I txs (resetSeqNums b)
    (by rw [(hfields b).1, h1]) (by rw [(hfields b).2.1, h2])
  set b1 := (execTxsGo I (resetSeqNums b) txs).1 with hb1
  have c2 := execTxsGo_clean I txs (resetSeqNums b1)
    (by rw [(hfields b1).1, c1.2.2.1]) (by rw [(hfields b1).2.1, c1.2.2.2])
  refine ⟨execTxsGo_length I txs (resetSeqNums b), rfl, ?_⟩
  show (execTxsGo I (resetSeqNums b1) txs).2 = (execTxsGo I (resetSeqNums b) txs).2
  rw [c2.1, c1.1, (hfields b1).2.2.2, (hfields b).2.2.2, c1.2.1, (hfields b).2.2.1]

/-- C7 witness: a two-transaction batch on a freshly created account. -/
theorem executeTransactions_batch_witness :
    ((createAccount Blockchain.new).1.pendingTxs = []
      ∧ (createAccount Blockchain.new).1.executedCount = 0)
    ∧ ((executeTransactions failOracle (createAccount Blockchain.new).1
          [sampleTx, sampleTx2]).2.length = [sampleTx, sampleTx2].length
      ∧ (executeTransactions failOracle (createAccount Blockchain.new).1 []).2 = []
      ∧ (executeTransactions failOracle
            (executeTransactions failOracle (createAccount Blockchain.new).1
              [sampleTx, sampleTx2]).1 [sampleTx, sampleTx2]).2 =
          (executeTransactions failOracle (createAccount Blockchain.new).1
            [sampleTx, sampleTx2]).2) :=
  ⟨⟨rfl, rfl⟩,
   executeTransactions_batch failOracle (createAccount Blockchain.new).1
     [sampleTx, sampleTx2] rfl rfl⟩

/-- C2: whenever the deployed source unit is not a single matching
contract (or contract-interface) declaration — including when it fails to
parse or check — the deployment is rejected with exactly one "cannot
deploy invalid contract" diagnostic at the outer call-site span, recorded
before the inner code's own parse/check diagnostics; no code is installed
and constructor-argument checks are not run (the outcome is independent of
the supplied arguments). -/
theorem deployContract_invalid (assignable : String → String → Bool)
    (hash : List Nat → List Nat) (outerUnit : String) (callSite : SrcSpan)
    (addr : Nat) (name : String) (codeBytes : List Nat) (u : InnerUnit)
    (ledger : Ledger) (args args2 : List ArgValue)
    (h : deployValid name u = false) :
    (deployContract assignable hash outerUnit callSite addr name codeBytes u args ledger).errors
      = ⟨outerUnit, callSite, "cannot deploy invalid contract"⟩ :: innerDiags u
    ∧ (deployContract assignable hash outerUnit callSite addr name codeBytes u args ledger).ledger
      = ledger
    ∧ (deployContract assignable hash outerUnit callSite addr name codeBytes u args ledger).events
      = []
    ∧ deployContract assignable hash outerUnit callSite addr name codeBytes u args ledger
      = deployContract assignable hash outerUnit callSite addr name codeBytes u args2 ledger := by
  simp [deployContract, h]

/-- C2 witness: the unit of `TestRuntimeTransactionWithContractDeployment/
additional code which is invalid at top-level` — a matching contract plus
an extra top-level declaration. -/
theorem deployContract_invalid_witness :
    deployValid "Test" extraDeclUnit = false
    ∧ ((deployContract tyEq id "00" deployCallSite 42 "Test" testContractBytes extraDeclUnit
          [] []).errors
        = ⟨"00", deployCallSite, "cannot deploy invalid contract"⟩ :: innerDiags extraDeclUnit
      ∧ (deployContract tyEq id "00" deployCallSite 42 "Test" testContractBytes extraDeclUnit
          [] []).ledger = []
      ∧ (deployContract tyEq id "00" deployCallSite 42 "Test" testContractBytes extraDeclUnit
          [] []).events = []
      ∧ deployContract tyEq id "00" deployCallSite 42 "Test" testContractBytes extraDeclUnit
          [] []
        = deployContract tyEq id "00" deployCallSite 42 "Test" testContractBytes extraDeclUnit
          [⟨"Int"⟩] []) :=
  ⟨by decide,
   deployContract_invalid tyEq id "00" deployCallSite 42 "Test" testContractBytes extraDeclUnit
     [] [] [⟨"Int"⟩] (by decide)⟩

/-- C5: for every valid contract whose initializer declares N parameters
and every deployment supplying M arguments with M not equal to N, the
deployment fails with the single diagnostic "invalid argument count, too
many|too few arguments: expected N, got M" at the call-site span, and
nothing is installed (the ledger is unchanged and no event is emitted). -/
theorem deployContract_arity_mismatch (assignable : String → String → Bool)
    (hash : List Nat → List Nat) (outerUnit : String) (callSite : SrcSpan)
    (addr : Nat) (name : String) (codeBytes : List Nat) (u : InnerUnit)
    (ledger : Ledger) (args : List ArgValue)
    (hv : deployValid name u = true)
    (hm : args.length ≠ (contractInitParams u).length) :
    deployContract assignable hash outerUnit callSite addr name codeBytes u args ledger =
      { errors := [⟨outerUnit, callSite,
          "invalid argument count, " ++
            (if (contractInitParams u).length < args.length then "too many" else "too few") ++
            " arguments: expected " ++ toString (contractInitParams u).length ++
            ", got " ++ toString args.length⟩],
        ledger := ledger,
        events := [] } := by
  simp [deployContract, hv, hm, arityDiag]

/-- C5 witness: `TestRuntimeTransactionWithContractDeployment/additional
argument` — a contract with no initializer parameters deployed with one
argument yields exactly the arity diagnostic of the test. -/
theorem deployContract_arity_mismatch_witness :
    (deployValid "Test" testContractUnit = true
      ∧ ([ArgValue.mk "Int"].length ≠ (contractInitParams testContractUnit).length))
    ∧ deployContract tyEq id "00" deployCallSite 42 "Test" testContractBytes testContractUnit
        [ArgValue.mk "Int"] [] =
      { errors := [⟨"00", deployCallSite,
          "invalid argument count, " ++
            (if (contractInitParams testContractUnit).length < [ArgValue.mk "Int"].length
             then "too many" else "too few") ++
            " arguments: expected " ++ toString (contractInitParams testContractUnit).length ++
            ", got " ++ toString [ArgValue.mk "Int"].length⟩],
        ledger := [],
        events := [] }
    ∧ ("invalid argument count, " ++
        (if (contractInitParams testContractUnit).length < [ArgValue.mk "Int"].length
         then "too many" else "too few") ++
        " arguments: expected " ++ toString (contractInitParams testContractUnit).length ++
        ", got " ++ toString [ArgValue.mk "Int"].length)
      = "invalid argument count, too many arguments: expected 0, got 1" :=
  ⟨⟨by decide, by decide⟩,
   deployContract_arity_mismatch tyEq id "00" deployCallSite 42 "Test" testContractBytes
     testContractUnit [] [ArgValue.mk "Int"] (by decide) (by decide),
   by decide⟩

theorem checkArgumentTypes_stops (assignable : String → String → Bool)
    (outerUnit : String) (callSite : SrcSpan) :
    ∀ (pre : List (ArgValue × String)) (k : Nat) (abad : ArgValue) (pbad : String)
      (asRest : List ArgValue) (psRest : List String),
      (∀ ap ∈ pre, assignable ap.1.ty ap.2 = true) →
      assignable abad.ty pbad = false →
      checkArgumentTypes assignable outerUnit callSite k
          (pre.map Prod.snd ++ pbad :: psRest) (pre.map Prod.fst ++ abad :: asRest) =
        some ⟨outerUnit, callSite,
          "invalid argument " ++ toString (k + pre.length) ++ ": expected type `" ++ pbad ++
            "`, got `" ++ abad.ty ++ "`"⟩
  | [], k, abad, pbad, asRest, psRest, _, hbad => by
    simp [checkArgumentTypes, hbad]
  | (a, p) :: pre, k, abad, pbad, asRest, psRest, hpre, hbad => by
    have ha : assignable a.ty p = true := hpre (a, p) (by simp)
    have ih := checkArgumentTypes_stops assignable outerUnit callSite pre (k + 1) abad pbad
      asRest psRest (fun ap hap => hpre ap (by simp [hap])) hbad
    have hidx : k + 1 + pre.length = k + (pre.length + 1) := by omega
    rw [hidx] at ih
    simp [checkArgumentTypes, ha, ih]

/-- C6: when the argument count matches the initializer's parameter count,
the arguments are type-checked left-to-right; with every argument before
position i assignable and the argument at position i (`abad`, against
declared type `pbad`, with i = pre.length) not assignable, the deployment
fails with the single diagnostic "invalid argument i: expected type
`declared`, got `actual`" at the call-site span, checking stops there (the
outcome is the same for every choice of the arguments after position i),
and nothing is installed. -/
theorem deployContract_type_mismatch (assignable : String → String → Bool)
    (hash : List Nat → List Nat) (outerUnit : String) (callSite : SrcSpan)
    (addr : Nat) (name : String) (codeBytes : List Nat) (u : InnerUnit)
    (ledger : Ledger) (pre : List (ArgValue × String)) (abad : ArgValue) (pbad : String)
    (psRest : List String)
    (hv : deployValid name u = true)
    (hparams : contractInitParams u = pre.map Prod.snd ++ pbad :: psRest)
    (hpre : ∀ ap ∈ pre, assignable ap.1.ty ap.2 = true)
    (hbad : assignable abad.ty pbad = false) :
    ∀ asRest : List ArgValue, asRest.length = psRest.length →
      deployContract assignable hash outerUnit callSite addr name codeBytes u
          (pre.map Prod.fst ++ abad :: asRest) ledger =
        { errors := [⟨outerUnit, callSite,
            "invalid argument " ++ toString pre.length ++ ": expected type `" ++ pbad ++
              "`, got `" ++ abad.ty ++ "`"⟩],
          ledger := ledger,
          events := [] } := by
  intro asRest hlen
  have hchk := checkArgumentTypes_stops assignable outerUnit callSite pre 0 abad pbad
    asRest psRest hpre hbad
  have hargslen : (pre.map Prod.fst ++ abad :: asRest).length = (contractInitParams u).length := by
    simp [hparams, hlen]
  simp [deployContract, hv, hparams, hargslen, hchk]

/-- C6 witness: `TestRuntimeTransactionWithContractDeployment/with
incorrect argument` — a contract whose initializer declares one `Int`
parameter, deployed with a `Bool` argument. -/
theorem deployContract_type_mismatch_witness :
    (deployValid "Test" intParamContractUnit = true
      ∧ contractInitParams intParamContractUnit
          = List.map Prod.snd ([] : List (ArgValue × String)) ++ "Int" :: []
      ∧ tyEq (ArgValue.mk "Bool").ty "Int" = false)
    ∧ deployContract tyEq id "00" deployCallSite 42 "Test" testContractBytes
        intParamContractUnit
        (List.map Prod.fst ([] : List (ArgValue × String)) ++ ArgValue.mk "Bool" :: []) [] =
      { errors := [⟨"00", deployCallSite,
          "invalid argument " ++ toString (List.length ([] : List (ArgValue × String))) ++
            ": expected type `" ++ "Int" ++ "`, got `" ++ (ArgValue.mk "Bool").ty ++ "`"⟩],
        ledger := [],
        events := [] }
    ∧ ("invalid argument " ++ toString (List.length ([] : List (ArgValue × String))) ++
        ": expected type `" ++ "Int" ++ "`, got `" ++ (ArgValue.mk "Bool").ty ++ "`")
      = "invalid argument 0: expected type `Int`, got `Bool`" :=
  ⟨⟨by decide, by decide, by decide⟩,
   deployContract_type_mismatch tyEq id "00" deployCallSite 42 "Test" testContractBytes
     intParamContractUnit [] [] (ArgValue.mk "Bool") "Int" [] (by decide) (by decide)
     (by simp) (by decide) [] (by decide),
   by decide⟩

theorem mapGet_mapSet_self {K V : Type} [DecidableEq K] (m : List (K × V)) (k : K) (v : V) :
    mapGet (mapSet m k v) k = some v := by
  induction m with
  | nil => simp [mapGet, mapSet]
  | cons kv rest ih =>
    obtain ⟨k0, v0⟩ := kv
    by_cases h : k0 = k
    · simp [mapGet, mapSet, h]
    · simp [mapGet, mapSet, h, ih]

/-- C8: deploying the unit of `pub contract Test {}` with zero arguments
succeeds for every hash collaborator, assignability judgement, target
address and prior ledger: no error is recorded, the (non-empty) code bytes
are installed under the target account, and exactly one deployment event
is emitted whose code-hash field equals the hash of the installed code
bytes, computed over the raw code bytes at install time. -/
theorem deployContract_test_contract_success (assignable : String → String → Bool)
    (hash : List Nat → List Nat) (outerUnit : String) (callSite : SrcSpan)
    (addr : Nat) (ledger : Ledger) :
    (deployContract assignable hash outerUnit callSite addr "Test" testContractBytes
        testContractUnit [] ledger).errors = []
    ∧ mapGet (deployContract assignable hash outerUnit callSite addr "Test" testContractBytes
        testContractUnit [] ledger).ledger (addr, "Test") = some testContractBytes
    ∧ testContractBytes ≠ []
    ∧ (deployContract assignable hash outerUnit callSite addr "Test" testContractBytes
        testContractUnit [] ledger).events = [⟨addr, "Test", hash testContractBytes⟩] := by
  have hvalid : deployValid "Test" testContractUnit = true := by decide
  have hparams : contractInitParams testContractUnit = [] := by decide
  refine ⟨?_, ?_, by decide, ?_⟩ <;>
    simp [deployContract, hvalid, hparams, checkArgumentTypes, mapGet_mapSet_self]
